import Mathlib

/-!
Shallow embedding of the cli2rest service (src/app.py).

Conventions used throughout:

* Relative and absolute filesystem paths are represented as lists of path
  segments (`Path := List String`); joining `os.path.join(temp_dir, rel)`
  for a relative `rel` is list append.  Kernel-level resolution of `..`
  and `.` segments at file-open time is modelled by `normalize`.
* The on-disk state visible to one request is a finite map from normalized
  paths to byte contents (`FS`), starting empty because `tempfile.mkdtemp`
  creates a fresh directory.  Only regular files are stored, matching the
  `os.path.exists and os.path.isfile` check in the collector.
* Byte strings are `List Nat`.
* The behaviour of `subprocess.run` is a parameter (`ProcOutcome`): the
  child either exits with a return code (Python reports a process killed
  by signal `n` as `returncode = -n`), raises `TimeoutExpired` with
  optional partial output, raises `FileNotFoundError`, or raises some
  other exception.  The child's effect on the workspace directory is a
  parameter `effect : FS → FS`.
* Wall-clock / rusage statistics are environment samples; they are carried
  opaquely as a `JVal` parameter in the result dictionary.
* Python exception strings are modelled up to renaming; no behaviour
  depends on their exact text.
-/

namespace Cli2Rest

abbrev Bytes := List Nat

abbrev Path := List String

/-- Filesystem model: association list from normalized absolute path to the
bytes of a regular file. -/
abbrev FS := List (Path × Bytes)

/-- Kernel-style resolution of a segment list: drops empty and `.` segments
and lets `..` remove the previous segment (a `..` at the root stays at the
root). `stack` holds the already-resolved prefix in reverse. -/
def normAux (stack : List String) : List String → List String
  | [] => stack.reverse
  | s :: rest =>
    if s = "" ∨ s = "." then normAux stack rest
    else if s = ".." then normAux stack.tail rest
    else normAux (s :: stack) rest

/-- Resolve `.` and `..` segments in a path. -/
def normalize (p : Path) : Path := normAux [] p

/-- Lookup of a (normalized) path in the filesystem model. -/
def lookupFS (fs : FS) (p : Path) : Option Bytes :=
  match fs with
  | [] => none
  | (q, d) :: rest => if q = p then some d else lookupFS rest p

/-- Writing a file: `open(file_path, "wb")` truncates, so an existing entry
is replaced. -/
def insertFS (fs : FS) (p : Path) (c : Bytes) : FS :=
  match fs with
  | [] => [(p, c)]
  | (q, d) :: rest => if q = p then (p, c) :: rest else (q, d) :: insertFS rest p c

/-- Input-file materialization loop of `execute_command_sync`
(src/app.py lines 110-129): each upload whose filename is non-empty is
written at `os.path.join(temp_dir, filename)`; `os.makedirs` creates the
parents.  No containment check of any kind is performed on the path. -/
def write_input_files (temp_dir : Path) (files : List (Path × Bytes)) (fs : FS) : FS :=
  match files with
  | [] => fs
  | (name, content) :: rest =>
    if name = [] then write_input_files temp_dir rest fs
    else write_input_files temp_dir rest (insertFS fs (normalize (temp_dir ++ name)) content)

/-- Python exceptions that cross function boundaries in app.py. -/
inductive PyError where
  | httpException (code : Nat) (detail : String)
  | typeError (msg : String)
  deriving DecidableEq, Repr

/-- Possible behaviours of the `subprocess.run` call (src/app.py lines
145-152).  A child killed by signal `n` is reported by Python as
`exited (-n)`. -/
inductive ProcOutcome where
  | exited (returncode : Int) (stdout stderr : String)
  | timedOut (stdoutPart stderrPart : Option String)
  | startFailure
  | otherError (msg : String)
  deriving DecidableEq, Repr

/-- The try/except block around `subprocess.run` (src/app.py lines
140-166): returns the tentative status, the optional exit code and the
captured output, or raises. -/
def run_subprocess : ProcOutcome → Except PyError (String × Option Int × String × String)
  | .exited code out err =>
      .ok (if code ≠ 0 then "FAILED" else "COMPLETED", some code, out, err)
  | .timedOut pout perr => .ok ("TIMEOUT", none, pout.getD "", perr.getD "")
  | .startFailure => .error (.httpException 400 "Command not found")
  | .otherError m => .error (.httpException 500 ("Error running command: " ++ m))

/-- The result dictionary built at src/app.py lines 187-202, minus the
environment-sampled `execution_stats` (re-attached in `resultDict`). -/
structure ExecResult where
  status : String
  exit_code : Option Int
  missing_files : List Path
  stdout : String
  stderr : String
  command : String
  output_files : List (Path × Path)
  deriving DecidableEq, Repr

/-- Per-request inputs of `execute_command_sync` other than the uploaded
files: the argv list, the requested output paths, the fresh temporary
directory, and the two environment parameters describing the child process
(its outcome and its effect on the workspace files). -/
structure ExecArgs where
  arguments : List String
  output_files : List Path
  temp_dir : Path
  outcome : ProcOutcome
  effect : FS → FS

/-- Output-collection loop (src/app.py lines 173-182): each requested path
is resolved against the temp directory; existing regular files are kept
(in request order) with their absolute path, the rest are recorded as
missing. -/
def collect_output_files (temp_dir : Path) (ofiles : List Path) (fs : FS) :
    List (Path × Path) × List Path :=
  match ofiles with
  | [] => ([], [])
  | p :: rest =>
    let pm := collect_output_files temp_dir rest fs
    if (lookupFS fs (normalize (temp_dir ++ p))).isSome then
      ((p, temp_dir ++ p) :: pm.1, pm.2)
    else
      (pm.1, p :: pm.2)

/-- `execute_command_sync` (src/app.py lines 97-206): write the uploads
into the fresh temp directory, run the subprocess, collect the requested
output files, and compose the result.  Line 184-185 overrides the status
with `MISSING_OUTPUT_FILES` whenever any requested file is absent.  The
returned `FS` is the on-disk state of the temp directory when the function
returns. -/
def execute_command_sync (input_files : List (Path × Bytes)) (a : ExecArgs) :
    Except PyError (ExecResult × FS) :=
  match run_subprocess a.outcome with
  | .error e => .error e
  | .ok (st, code, out, err) =>
    let fs1 := a.effect (write_input_files a.temp_dir input_files [])
    let pm := collect_output_files a.temp_dir a.output_files fs1
    .ok (⟨if pm.2.isEmpty then st else "MISSING_OUTPUT_FILES",
          code, pm.2, out, err, String.intercalate " " a.arguments, pm.1⟩, fs1)

/-- JSON values, used for the metadata dictionary built at src/app.py lines
187-202 and serialized at line 61. -/
inductive JVal where
  | jnull
  | jstr (s : String)
  | jint (n : Int)
  | jlist (xs : List JVal)
  | jobj (fields : List (String × JVal))

/-- Paths are rendered with `/` separators in JSON, as the Python strings
they come from. -/
def jsonOfPath (p : Path) : JVal := .jstr (String.intercalate "/" p)

/-- The `result` dictionary of `execute_command_sync` (src/app.py lines
187-202), key by key and in source order; `stats` stands for the sampled
`execution_stats` object. -/
def resultDict (r : ExecResult) (stats : JVal) : List (String × JVal) :=
  [("status", .jstr r.status),
   ("exit_code", match r.exit_code with | none => .jnull | some c => .jint c),
   ("missing_files", .jlist (r.missing_files.map jsonOfPath)),
   ("execution_stats", stats),
   ("stdout", .jstr r.stdout),
   ("stderr", .jstr r.stderr),
   ("command", .jstr r.command),
   ("output_files", .jlist (r.output_files.map (fun pa =>
      .jobj [("relative_path", jsonOfPath pa.1), ("absolute_path", jsonOfPath pa.2)])))]

/-- `dict.pop(k)`: the dictionary without key `k` (src/app.py line 265). -/
def popKey (k : String) (d : List (String × JVal)) : List (String × JVal) :=
  d.filter (fun kv => kv.1 != k)

/-- Lookup of a key in a JSON dictionary. -/
def lookupKey (k : String) : List (String × JVal) → Option JVal
  | [] => none
  | (k2, v) :: rest => if k2 = k then some v else lookupKey k rest

/-- The `while chunk := f.read(65536)` loop (src/app.py lines 72-74):
splits a byte string into successive chunks of at most `n` bytes. -/
def chunksOf (n : Nat) (bs : Bytes) : List Bytes :=
  if h : bs = [] then []
  else if hn : n = 0 then []
  else bs.take n :: chunksOf n (bs.drop n)
termination_by bs.length
decreasing_by
  simp only [List.length_drop]
  have hb : 0 < bs.length := List.length_pos.mpr h
  omega

/-- One section of the multipart stream produced by
`create_multipart_generator`: the JSON metadata part, one binary part per
output file (filename attribute and chunked bytes), or the closing
boundary. -/
inductive StreamSection where
  | metadataPart (fields : List (String × JVal))
  | filePart (filename : Path) (chunks : List Bytes)
  | closingBoundary

/-- Reading an output file from disk at streaming time (src/app.py line
72); the files streamed were checked to exist by the collector. -/
def read_file (fs : FS) (p : Path) : Bytes := (lookupFS fs (normalize p)).getD []

/-- `create_multipart_generator` (src/app.py lines 52-78): the metadata
part first, then one octet-stream part per output file in list order
(filename = the declared relative path, body read from the absolute path
in 64 KiB chunks), then the closing boundary. -/
def create_multipart_generator (metadata : List (String × JVal)) (fs : FS)
    (output_files : List (Path × Path)) : List StreamSection :=
  StreamSection.metadataPart metadata ::
    (output_files.map (fun pa => StreamSection.filePart pa.1 (chunksOf 65536 (read_file fs pa.2)))
      ++ [StreamSection.closingBoundary])

/-- How the streaming of a constructed response ends: normal completion,
an exception while streaming, or the network client disconnecting. -/
inductive StreamFate where
  | completed
  | streamError
  | clientDisconnected
  deriving DecidableEq, Repr

/-- Observable trace of one call of the `run_command` endpoint: the HTTP
outcome, whether `tempfile.mkdtemp` ran, whether the temp directory was
removed by the time the request is over, and whether `subprocess.run` was
attempted. -/
structure HandlerTrace where
  response : Except PyError (List StreamSection × StreamFate)
  workspaceCreated : Bool
  workspaceDestroyed : Bool
  commandRan : Bool

/-- Python `str(e)` for the modelled exceptions: `str` of an
`HTTPException` renders as `"<code>: <detail>"`. -/
def strOfError : PyError → String
  | .httpException code detail => toString code ++ ": " ++ detail
  | .typeError msg => msg

/-- Message of the `TypeError` raised by `for upload_file in None`
(src/app.py line 237 with the `File(None)` default of line 212). -/
def noneIterMsg : String := "TypeError: NoneType object is not iterable"

/-- The `POST /run-command` handler (src/app.py lines 209-276).
`input_files` is `none` when the request carries no `input_files` parts
(the `File(None)` default).  The whole body is inside
`try: ... except Exception as e: raise HTTPException(500, ...)`, so any
exception — including the `HTTPException(400)` raised for a missing
executable — is re-raised as a 500.  The temp directory is created before
the executor call; it is removed only by `CleanupStreamingResponse`'s
`finally` block, which runs for every stream fate once a response object
was constructed, and never runs on the exception paths. -/
def run_command (input_files : Option (List (Path × Bytes)))
    (a : ExecArgs) (stats : JVal) (fate : StreamFate) : HandlerTrace :=
  match input_files with
  | none =>
    ⟨.error (.httpException 500 ("Error processing request: " ++ noneIterMsg)),
     false, false, false⟩
  | some files =>
    match execute_command_sync files a with
    | .error e =>
      ⟨.error (.httpException 500 ("Error processing request: " ++ strOfError e)),
       true, false, true⟩
    | .ok (res, fs1) =>
      let metadata := popKey "output_files" (resultDict res stats)
      ⟨.ok (create_multipart_generator metadata fs1 res.output_files, fate),
       true, true, true⟩

/-- Status of an `execute_command_sync` call, when it returned. -/
def execStatus (x : Except PyError (ExecResult × FS)) : Option String :=
  match x with
  | .ok (r, _) => some r.status
  | .error _ => none

/-- Sections of the streamed response, when one was constructed. -/
def responseSections (t : HandlerTrace) : Option (List StreamSection) :=
  match t.response with
  | .ok (s, _) => some s
  | .error _ => none

/-- HTTP status code of the error response, when the handler raised. -/
def responseErrorCode (t : HandlerTrace) : Option Nat :=
  match t.response with
  | .error (.httpException c _) => some c
  | _ => none

/-! ### Concrete request instances used in closed theorems -/

/-- Request whose executable is missing: `subprocess.run` raises
`FileNotFoundError`. -/
def argsNF : ExecArgs := ⟨["nonexistent-binary"], [], ["tmp", "t4"], .startFailure, id⟩

/-- Request whose subprocess call raises an unexpected internal error. -/
def argsLeak : ExecArgs := ⟨["cat"], [], ["tmp", "t1"], .otherError "disk full", id⟩

/-- Trivial successful request. -/
def argsOkSmall : ExecArgs := ⟨["true"], [], ["t1b"], .exited 0 "" "", id⟩

/-- Result of `argsOkSmall`. -/
def resOkSmall : ExecResult := ⟨"COMPLETED", some 0, [], "", "", "true", []⟩

/-- Failing command that also leaves a requested output file missing. -/
def argsC2 : ExecArgs := ⟨["false"], [["x.txt"]], ["t2"], .exited 1 "" "", id⟩

/-- Result of `argsC2`. -/
def resC2 : ExecResult := ⟨"MISSING_OUTPUT_FILES", some 1, [["x.txt"]], "", "", "false", []⟩

/-- Command killed by SIGKILL (signal 9): Python reports `returncode = -9`. -/
def argsSig : ExecArgs := ⟨["memhog"], [], ["t5"], .exited (-9) "" "", id⟩

/-- Result of `argsSig`. -/
def resSig : ExecResult := ⟨"FAILED", some (-9), [], "", "", "memhog", []⟩

/-- Command that times out with some stdout already captured. -/
def argsTO : ExecArgs := ⟨["sleep", "5"], [], ["t6"], .timedOut (some "abc") none, id⟩

/-- Result of `argsTO`. -/
def resTO : ExecResult := ⟨"TIMEOUT", none, [], "abc", "", "sleep 5", []⟩

/-- Command that times out while a requested output file is missing. -/
def argsTOmiss : ExecArgs := ⟨["sleep", "5"], [["out.txt"]], ["t6b"], .timedOut none none, id⟩

/-- The `false` scenario: exits on its own with code 1. -/
def argsFalse : ExecArgs := ⟨["false"], [], ["t7"], .exited 1 "" "", id⟩

/-- Result of `argsFalse`. -/
def resFalse : ExecResult := ⟨"FAILED", some 1, [], "", "", "false", []⟩

/-- Command that creates the requested output file `a.txt` in the
workspace. -/
def argsC8 : ExecArgs :=
  ⟨["touch", "a.txt"], [["a.txt"]], ["t8"], .exited 0 "" "",
   fun fs => insertFS fs ["t8", "a.txt"] [7]⟩

/-- Result of `argsC8`. -/
def resC8 : ExecResult :=
  ⟨"COMPLETED", some 0, [], "", "", "touch a.txt", [(["a.txt"], ["t8", "a.txt"])]⟩

/-- Workspace contents of `argsC8` after the command ran. -/
def fsC8 : FS := [(["t8", "a.txt"], [7])]

/-! ### Shared lemmas -/

/-- Auxiliary: chunks of a byte string concatenate back to it (induction on
a length bound). -/
theorem chunksOf_flatten_aux (n : Nat) (hn : 0 < n) :
    ∀ (m : Nat) (bs : Bytes), bs.length ≤ m → (chunksOf n bs).flatten = bs := by
  intro m
  induction m with
  | zero =>
    intro bs hb
    have hbs : bs = [] := List.eq_nil_of_length_eq_zero (Nat.le_zero.mp hb)
    subst hbs
    rw [chunksOf]
    simp
  | succ m ih =>
    intro bs hb
    rw [chunksOf]
    split
    · rename_i hbs
      simp [hbs]
    · split
      · omega
      · rename_i hbs hn0
        rw [List.flatten_cons]
        rw [ih (bs.drop n)
          (by
            have hpos : 0 < bs.length := List.length_pos.mpr hbs
            simp only [List.length_drop]
            omega)]
        exact List.take_append_drop n bs

/-- Chunks of a byte string concatenate back to it. -/
theorem chunksOf_flatten (n : Nat) (hn : 0 < n) (bs : Bytes) :
    (chunksOf n bs).flatten = bs :=
  chunksOf_flatten_aux n hn bs.length bs (Nat.le_refl _)

/-- Auxiliary: every chunk is at most `n` bytes long. -/
theorem chunksOf_length_le_aux (n : Nat) :
    ∀ (m : Nat) (bs : Bytes), bs.length ≤ m → ∀ c ∈ chunksOf n bs, c.length ≤ n := by
  intro m
  induction m with
  | zero =>
    intro bs hb c hc
    have hbs : bs = [] := List.eq_nil_of_length_eq_zero (Nat.le_zero.mp hb)
    subst hbs
    rw [chunksOf] at hc
    simp at hc
  | succ m ih =>
    intro bs hb c hc
    rw [chunksOf] at hc
    revert hc
    split
    · intro hc; simp at hc
    · split
      · intro hc; simp at hc
      · rename_i hbs hn0
        intro hc
        rcases List.mem_cons.mp hc with h | h
        · subst h
          calc (bs.take n).length = min n bs.length := List.length_take n bs
            _ ≤ n := Nat.min_le_left _ _
        · exact ih (bs.drop n)
            (by
              have hpos : 0 < bs.length := List.length_pos.mpr hbs
              simp only [List.length_drop]
              omega) c h

/-- Every chunk is at most `n` bytes long. -/
theorem chunksOf_length_le (n : Nat) (bs : Bytes) :
    ∀ c ∈ chunksOf n bs, c.length ≤ n :=
  chunksOf_length_le_aux n bs.length bs (Nat.le_refl _)

/-- Popping a key really removes it. -/
theorem lookupKey_popKey (k : String) (d : List (String × JVal)) :
    lookupKey k (popKey k d) = none := by
  induction d with
  | nil => rfl
  | cons kv rest ih =>
    by_cases hk : kv.1 = k
    · simpa [popKey, hk] using ih
    · simpa [popKey, lookupKey, hk] using ih

/-- Membership in the missing list of the collector: exactly the requested
paths that do not resolve to a file in the workspace. -/
theorem collect_mem_missing (temp : Path) (fs : FS) :
    ∀ (ofiles : List Path) (p : Path),
      p ∈ (collect_output_files temp ofiles fs).2 ↔
        p ∈ ofiles ∧ lookupFS fs (normalize (temp ++ p)) = none := by
  intro ofiles
  induction ofiles with
  | nil =>
    intro p
    simp [collect_output_files]
  | cons q rest ih =>
    intro p
    by_cases hq : (lookupFS fs (normalize (temp ++ q))).isSome
    · simp only [collect_output_files, hq, if_true]
      rw [ih p]
      constructor
      · rintro ⟨hp, hnone⟩
        exact ⟨List.mem_cons_of_mem _ hp, hnone⟩
      · rintro ⟨hp, hnone⟩
        rcases List.mem_cons.mp hp with h | h
        · subst h
          rw [hnone] at hq
          simp at hq
        · exact ⟨h, hnone⟩
    · simp only [collect_output_files, hq, if_false]
      constructor
      · intro hp
        rcases List.mem_cons.mp hp with h | h
        · subst h
          exact ⟨List.mem_cons_self _ _, Option.not_isSome_iff_eq_none.mp hq⟩
        · rcases (ih p).mp h with ⟨hp2, hnone⟩
          exact ⟨List.mem_cons_of_mem _ hp2, hnone⟩
      · rintro ⟨hp, hnone⟩
        rcases List.mem_cons.mp hp with h | h
        · subst h
          exact List.mem_cons_self _ _
        · exact List.mem_cons_of_mem _ ((ih p).mpr ⟨h, hnone⟩)

/-- The relative paths of the collected files are the requested paths that
resolve to files, in request order. -/
theorem collect_map_fst (temp : Path) (fs : FS) :
    ∀ ofiles : List Path,
      (collect_output_files temp ofiles fs).1.map Prod.fst =
        ofiles.filter (fun p => (lookupFS fs (normalize (temp ++ p))).isSome) := by
  intro ofiles
  induction ofiles with
  | nil => simp [collect_output_files]
  | cons q rest ih =>
    by_cases hq : (lookupFS fs (normalize (temp ++ q))).isSome
    · simp [collect_output_files, hq, ih, List.filter_cons]
    · simp [collect_output_files, hq, ih, List.filter_cons]

/-- Inversion of a successful `execute_command_sync` call: the subprocess
phase returned, the final filesystem is the command effect applied to the
materialized inputs, and the result fields are as composed at src/app.py
lines 184-202. -/
theorem execute_ok_inv (files : List (Path × Bytes)) (a : ExecArgs)
    (r : ExecResult) (fs : FS)
    (h : execute_command_sync files a = .ok (r, fs)) :
    ∃ st code out err,
      run_subprocess a.outcome = .ok (st, code, out, err) ∧
      fs = a.effect (write_input_files a.temp_dir files []) ∧
      r = ⟨if (collect_output_files a.temp_dir a.output_files fs).2.isEmpty then st
             else "MISSING_OUTPUT_FILES",
           code,
           (collect_output_files a.temp_dir a.output_files fs).2,
           out, err,
           String.intercalate " " a.arguments,
           (collect_output_files a.temp_dir a.output_files fs).1⟩ := by
  unfold execute_command_sync at h
  cases hq : run_subprocess a.outcome with
  | error e =>
    rw [hq] at h
    exact absurd h (by simp)
  | ok q =>
    obtain ⟨st, code, out, err⟩ := q
    rw [hq] at h
    simp only [Except.ok.injEq, Prod.mk.injEq] at h
    obtain ⟨hr, hfs⟩ := h
    subst hfs
    exact ⟨st, code, out, err, rfl, rfl, hr.symm⟩

/-! ### Claim theorems -/

/-- C3: the spec demands that an input file whose relative path resolves
outside the workspace root be rejected with a client error before any
process is spawned, and that no file ever be written outside the
workspace.  The code has no such check (src/app.py lines 110-129): for
the uploaded filename `../evil.txt` the file is written at
`<temp_dir>/../evil.txt`, i.e. outside the workspace root
`tmp/work123`, and the command is then executed normally. -/
theorem input_path_escape_written_and_executed :
    write_input_files ["tmp", "work123"] [(["..", "evil.txt"], [42])] []
        = [(["tmp", "evil.txt"], [42])] ∧
    List.isPrefixOf ["tmp", "work123"] ["tmp", "evil.txt"] = false ∧
    execStatus (execute_command_sync [(["..", "evil.txt"], [42])]
        ⟨["cat", "../evil.txt"], [], ["tmp", "work123"], .exited 0 "" "", id⟩)
      = some "COMPLETED" :=
  ⟨rfl, rfl, rfl⟩

/-- C4: inside the worker, a missing executable does raise
`HTTPException(400, "Command not found")` (src/app.py line 164), but the
endpoint wraps its whole body in `except Exception` (line 273), which
catches that `HTTPException` and re-raises it as a 500 server error — so
the caller sees HTTP 500, not a 4xx client error. -/
theorem command_not_found_surfaced_as_server_error :
    execute_command_sync [] argsNF
        = .error (.httpException 400 "Command not found") ∧
    responseErrorCode (run_command (some []) argsNF .jnull .completed) = some 500 ∧
    (run_command (some []) argsNF .jnull .completed).response
        = .error (.httpException 500 "Error processing request: 400: Command not found") :=
  ⟨rfl, rfl, rfl⟩

/-- C10: with no `input_files` parts the parameter defaults to `None`
(src/app.py line 212); the handler iterates over it (line 237), raising a
`TypeError` that the blanket `except Exception` converts into an HTTP 500;
no temp directory is created and no command runs. -/
theorem no_input_files_rejected_with_500 (a : ExecArgs) (stats : JVal) (fate : StreamFate) :
    (run_command none a stats fate).response
        = .error (.httpException 500 ("Error processing request: " ++ noneIterMsg)) ∧
    (run_command none a stats fate).workspaceCreated = false ∧
    (run_command none a stats fate).commandRan = false :=
  ⟨rfl, rfl, rfl⟩

/-- C1 counterexample: when `execute_command_sync` raises (here: an
unexpected internal error from `subprocess.run`), the handler re-raises an
HTTP 500 after `tempfile.mkdtemp` already ran, and no code path removes
the directory: the workspace is created but never destroyed, refuting the
claim that every accepted request destroys its workspace on every exit
path. -/
theorem workspace_leaked_on_execution_error :
    (run_command (some []) argsLeak .jnull .completed).workspaceCreated = true ∧
    (run_command (some []) argsLeak .jnull .completed).workspaceDestroyed = false ∧
    responseErrorCode (run_command (some []) argsLeak .jnull .completed) = some 500 :=
  ⟨rfl, rfl, rfl⟩

/-- C1 (amended): whenever `execute_command_sync` returns a result — so a
`CleanupStreamingResponse` is constructed — the workspace directory is
destroyed by its `finally` block for every stream fate: normal completion,
an exception while streaming, or a client disconnect.  On the paths where
execution raises, the workspace is leaked (see the counterexample). -/
theorem workspace_destroyed_after_successful_execution
    (files : List (Path × Bytes)) (a : ExecArgs) (stats : JVal) (fate : StreamFate)
    (rf : ExecResult × FS) (h : execute_command_sync files a = .ok rf) :
    (run_command (some files) a stats fate).workspaceDestroyed = true := by
  simp only [run_command, h]

/-- Witness for `workspace_destroyed_after_successful_execution` at a
concrete request, exercised on the client-disconnect fate. -/
theorem workspace_destroyed_after_successful_execution_witness :
    (run_command (some []) argsOkSmall .jnull .clientDisconnected).workspaceDestroyed = true :=
  workspace_destroyed_after_successful_execution [] argsOkSmall .jnull .clientDisconnected
    (resOkSmall, []) rfl

/-- C2 counterexample: a command that itself failed (exit code 1) while a
requested output file is missing gets status `MISSING_OUTPUT_FILES`, not
`FAILED`: the override at src/app.py lines 184-185 is unconditional, so
the process outcome does not take precedence as the claim states. -/
theorem missing_output_masks_failed_status :
    execStatus (execute_command_sync [] argsC2) = some "MISSING_OUTPUT_FILES" ∧
    execStatus (execute_command_sync [] argsC2) ≠ some "FAILED" :=
  ⟨rfl, by decide⟩

/-- C2 (amended): whenever any requested output path is missing after
execution, the status is set to `MISSING_OUTPUT_FILES` regardless of the
process outcome; missing paths all appear in `missing_files` and are
excluded from `output_files`. -/
theorem missing_output_status_override_and_fields
    (files : List (Path × Bytes)) (a : ExecArgs) (r : ExecResult) (fs : FS)
    (h : execute_command_sync files a = .ok (r, fs)) :
    (r.missing_files ≠ [] → r.status = "MISSING_OUTPUT_FILES") ∧
    (∀ p ∈ r.missing_files, p ∉ r.output_files.map Prod.fst) ∧
    (∀ p ∈ a.output_files,
      lookupFS fs (normalize (a.temp_dir ++ p)) = none → p ∈ r.missing_files) := by
  obtain ⟨st, code, out, err, hq, hfs, hr⟩ := execute_ok_inv files a r fs h
  subst hr
  refine ⟨?_, ?_, ?_⟩
  · intro hne
    simp only at hne ⊢
    rcases hl : (collect_output_files a.temp_dir a.output_files fs).2 with _ | ⟨x, xs⟩
    · exact absurd hl hne
    · simp [hl]
  · intro p hp hmem
    simp only at hp hmem
    rw [collect_map_fst] at hmem
    rcases List.mem_filter.mp hmem with ⟨_, hsome⟩
    rcases (collect_mem_missing a.temp_dir fs a.output_files p).mp hp with ⟨_, hnone⟩
    rw [hnone] at hsome
    simp at hsome
  · intro p hp hnone
    simp only
    exact (collect_mem_missing a.temp_dir fs a.output_files p).mpr ⟨hp, hnone⟩

/-- Witness for `missing_output_status_override_and_fields` at the
concrete failing request with one missing output file. -/
theorem missing_output_status_override_and_fields_witness :
    execute_command_sync [] argsC2 = .ok (resC2, []) ∧
    resC2.status = "MISSING_OUTPUT_FILES" ∧
    ["x.txt"] ∈ resC2.missing_files :=
  ⟨rfl,
   (missing_output_status_override_and_fields [] argsC2 resC2 [] rfl).1 (by decide),
   (missing_output_status_override_and_fields [] argsC2 resC2 [] rfl).2.2
     ["x.txt"] (by decide) rfl⟩

/-- C5 counterexample: a child killed by SIGKILL is reported by
`subprocess.run` with `returncode = -9`; the code only tests
`exit_code != 0` (src/app.py line 157), so the status is `FAILED`, never
`SIGNALED` (no such status or `signal_num` field exists in the code). -/
theorem sigkill_exit_not_signaled :
    execStatus (execute_command_sync [] argsSig) = some "FAILED" ∧
    execStatus (execute_command_sync [] argsSig) ≠ some "SIGNALED" ∧
    execute_command_sync [] argsSig = .ok (resSig, []) :=
  ⟨rfl, by decide, rfl⟩

/-- C5 (amended): no execution result ever carries a `SIGNALED` or `OOM`
status — the possible statuses are only COMPLETED/FAILED/TIMEOUT/
MISSING_OUTPUT_FILES — and a process terminated by signal `n` (reported by
Python as exit code `-n`) yields status `FAILED` with `exit_code = -n`
when no requested output file is missing. -/
theorem signal_termination_reported_as_failed
    (files : List (Path × Bytes)) (a : ExecArgs) (r : ExecResult) (fs : FS)
    (h : execute_command_sync files a = .ok (r, fs)) :
    (r.status ≠ "SIGNALED" ∧ r.status ≠ "OOM") ∧
    (∀ (n : Nat) (out err : String), 0 < n → a.outcome = .exited (-(n : Int)) out err →
      r.missing_files = [] → r.status = "FAILED" ∧ r.exit_code = some (-(n : Int))) := by
  obtain ⟨st, code, out, err, hq, hfs, hr⟩ := execute_ok_inv files a r fs h
  subst hr
  constructor
  · have hst : st = "FAILED" ∨ st = "COMPLETED" ∨ st = "TIMEOUT" := by
      cases ho : a.outcome with
      | exited c o e =>
        rw [ho] at hq
        simp only [run_subprocess, Except.ok.injEq, Prod.mk.injEq] at hq
        by_cases hc : c ≠ 0
        · left; rw [← hq.1]; simp [hc]
        · right; left; rw [← hq.1]; simp [hc]
      | timedOut po pe =>
        rw [ho] at hq
        simp only [run_subprocess, Except.ok.injEq, Prod.mk.injEq] at hq
        right; right; exact hq.1.symm
      | startFailure => rw [ho] at hq; simp [run_subprocess] at hq
      | otherError m => rw [ho] at hq; simp [run_subprocess] at hq
    simp only
    rcases hl : (collect_output_files a.temp_dir a.output_files fs).2 with _ | ⟨x, xs⟩
    · rcases hst with h1 | h1 | h1 <;> simp [h1]
    · simp
  · intro n o e hn ho hm
    rw [ho] at hq
    simp only [run_subprocess, Except.ok.injEq, Prod.mk.injEq] at hq
    obtain ⟨hst, hcode, _, _⟩ := hq
    have hne : (-(n : Int)) ≠ 0 := by
      simp only [ne_eq, neg_eq_zero]
      exact_mod_cast Nat.pos_iff_ne_zero.mp hn
    simp only at hm ⊢
    rw [hm] at *
    constructor
    · rw [← hst]
      simp [hne, hm]
    · exact hcode.symm

/-- Witness for `signal_termination_reported_as_failed` at the concrete
SIGKILL request. -/
theorem signal_termination_reported_as_failed_witness :
    execute_command_sync [] argsSig = .ok (resSig, []) ∧
    resSig.status = "FAILED" ∧ resSig.exit_code = some (-9) :=
  ⟨rfl,
   ((signal_termination_reported_as_failed [] argsSig resSig [] rfl).2
      9 "" "" (by decide) rfl rfl).1,
   ((signal_termination_reported_as_failed [] argsSig resSig [] rfl).2
      9 "" "" (by decide) rfl rfl).2⟩

/-- C6 counterexample: a timed-out command that also leaves a requested
output file missing does not keep status `TIMEOUT`: the unconditional
override at src/app.py lines 184-185 sets `MISSING_OUTPUT_FILES`, so the
claim does not hold for every request with a too-small timeout. -/
theorem timeout_status_overridden_by_missing_outputs :
    execStatus (execute_command_sync [] argsTOmiss) = some "MISSING_OUTPUT_FILES" ∧
    execStatus (execute_command_sync [] argsTOmiss) ≠ some "TIMEOUT" :=
  ⟨rfl, by decide⟩

/-- C6 (amended): when the subprocess call raises `TimeoutExpired`, the
result has no exit code, preserves whatever stdout/stderr was captured
before the kill (empty string when nothing was), and has status `TIMEOUT`
unless some requested output file is missing, in which case the status is
`MISSING_OUTPUT_FILES`. -/
theorem timeout_result_fields
    (files : List (Path × Bytes)) (a : ExecArgs) (pout perr : Option String)
    (r : ExecResult) (fs : FS)
    (ho : a.outcome = .timedOut pout perr)
    (h : execute_command_sync files a = .ok (r, fs)) :
    r.exit_code = none ∧ r.stdout = pout.getD "" ∧ r.stderr = perr.getD "" ∧
    r.status = (if r.missing_files.isEmpty then "TIMEOUT" else "MISSING_OUTPUT_FILES") := by
  obtain ⟨st, code, out, err, hq, hfs, hr⟩ := execute_ok_inv files a r fs h
  subst hr
  rw [ho] at hq
  simp only [run_subprocess, Except.ok.injEq, Prod.mk.injEq] at hq
  obtain ⟨hst, hcode, hout, herr⟩ := hq
  refine ⟨hcode.symm, hout.symm, herr.symm, ?_⟩
  simp only
  rw [← hst]

/-- Witness for `timeout_result_fields` at a concrete timed-out request
with partially captured stdout. -/
theorem timeout_result_fields_witness :
    execute_command_sync [] argsTO = .ok (resTO, []) ∧
    resTO.exit_code = none ∧ resTO.stdout = "abc" ∧ resTO.status = "TIMEOUT" :=
  ⟨rfl,
   (timeout_result_fields [] argsTO (some "abc") none resTO [] rfl rfl).1,
   (timeout_result_fields [] argsTO (some "abc") none resTO [] rfl rfl).2.1,
   (timeout_result_fields [] argsTO (some "abc") none resTO [] rfl rfl).2.2.2⟩

/-- C7: for a process that started and reported an exit code, with no
missing requested output files, the status is `FAILED` exactly when the
exit code is non-zero and `COMPLETED` exactly when it is zero, and
`exit_code` carries the process exit code (src/app.py lines 142-158). -/
theorem exit_code_determines_status
    (files : List (Path × Bytes)) (a : ExecArgs) (code : Int) (out err : String)
    (r : ExecResult) (fs : FS)
    (ho : a.outcome = .exited code out err)
    (h : execute_command_sync files a = .ok (r, fs))
    (hm : r.missing_files = []) :
    r.exit_code = some code ∧
    (r.status = "FAILED" ↔ code ≠ 0) ∧
    (r.status = "COMPLETED" ↔ code = 0) := by
  obtain ⟨st, code2, out2, err2, hq, hfs, hr⟩ := execute_ok_inv files a r fs h
  subst hr
  rw [ho] at hq
  simp only [run_subprocess, Except.ok.injEq, Prod.mk.injEq] at hq
  obtain ⟨hst, hcode, _, _⟩ := hq
  simp only at hm ⊢
  rw [hm] at *
  refine ⟨hcode.symm, ?_, ?_⟩
  · rw [← hst]
    by_cases hc : code = 0 <;> simp [hc, hm]
  · rw [← hst]
    by_cases hc : code = 0 <;> simp [hc, hm]

/-- Witness for `exit_code_determines_status` at the `["false"]`
scenario from the spec: exit code 1, status `FAILED`. -/
theorem exit_code_determines_status_witness :
    execute_command_sync [] argsFalse = .ok (resFalse, []) ∧
    resFalse.exit_code = some 1 ∧ resFalse.status = "FAILED" :=
  ⟨rfl,
   (exit_code_determines_status [] argsFalse 1 "" "" resFalse [] rfl rfl rfl).1,
   (exit_code_determines_status [] argsFalse 1 "" "" resFalse [] rfl rfl rfl).2.1.mpr
     (by decide)⟩

/-- C8 counterexample: the claim says the metadata section carries the
ExecutionResult with `output_files` content replaced by the declared
relative paths; in the code `metadata.pop("output_files")` (src/app.py
line 265) removes the key entirely, so for a run with one collected
output file the streamed metadata section has no `output_files` key at
all (while the pre-pop result dictionary did carry the paths). -/
theorem stream_metadata_lacks_output_files_key :
    (responseSections (run_command (some []) argsC8 .jnull .completed)).map List.head?
        = some (some (.metadataPart (popKey "output_files" (resultDict resC8 .jnull)))) ∧
    lookupKey "output_files" (popKey "output_files" (resultDict resC8 .jnull)) = none ∧
    lookupKey "output_files" (resultDict resC8 .jnull)
        = some (.jlist [.jobj [("relative_path", .jstr "a.txt"),
            ("absolute_path", .jstr "t8/a.txt")]]) ∧
    resC8.output_files ≠ [] :=
  ⟨rfl, rfl, rfl, by decide⟩

/-- C8 (amended): the streamed response is exactly one metadata section
first — the result dictionary with the `output_files` key removed
entirely — then one octet-stream section per collected output file in the
order the present files were requested, each carrying its relative path
as filename and its bytes split into chunks of at most 65536 bytes that
concatenate back to the file content, and finally the closing boundary. -/
theorem stream_layout_and_chunking
    (files : List (Path × Bytes)) (a : ExecArgs) (stats : JVal) (fate : StreamFate)
    (r : ExecResult) (fs : FS)
    (h : execute_command_sync files a = .ok (r, fs)) :
    responseSections (run_command (some files) a stats fate)
        = some (StreamSection.metadataPart (popKey "output_files" (resultDict r stats)) ::
            (r.output_files.map (fun pa =>
              StreamSection.filePart pa.1 (chunksOf 65536 (read_file fs pa.2)))
              ++ [StreamSection.closingBoundary])) ∧
    lookupKey "output_files" (popKey "output_files" (resultDict r stats)) = none ∧
    r.output_files.map Prod.fst
        = a.output_files.filter
            (fun p => (lookupFS fs (normalize (a.temp_dir ++ p))).isSome) ∧
    (∀ pa ∈ r.output_files,
      (chunksOf 65536 (read_file fs pa.2)).flatten = read_file fs pa.2 ∧
      ∀ c ∈ chunksOf 65536 (read_file fs pa.2), c.length ≤ 65536) := by
  refine ⟨?_, lookupKey_popKey _ _, ?_, ?_⟩
  · simp only [run_command, h, responseSections, create_multipart_generator]
  · obtain ⟨st, code, out, err, hq, hfs, hr⟩ := execute_ok_inv files a r fs h
    subst hr
    simp only
    exact collect_map_fst a.temp_dir fs a.output_files
  · intro pa _
    exact ⟨chunksOf_flatten 65536 (by decide) _, chunksOf_length_le 65536 _⟩

/-- Witness for `stream_layout_and_chunking` at a concrete run whose
command creates the single requested output file. -/
theorem stream_layout_and_chunking_witness :
    execute_command_sync [] argsC8 = .ok (resC8, fsC8) ∧
    responseSections (run_command (some []) argsC8 .jnull .completed)
        = some (StreamSection.metadataPart (popKey "output_files" (resultDict resC8 .jnull)) ::
            (resC8.output_files.map (fun pa =>
              StreamSection.filePart pa.1 (chunksOf 65536 (read_file fsC8 pa.2)))
              ++ [StreamSection.closingBoundary])) :=
  ⟨rfl, (stream_layout_and_chunking [] argsC8 .jnull .completed resC8 fsC8 rfl).1⟩

/-- C9: uploading `a/b.txt` with content `C`, running a command that does
not change what is stored at that path, and requesting `a/b.txt` as an
output file yields a streamed file section for `a/b.txt` whose chunks
concatenate to exactly `C`. -/
theorem input_output_roundtrip
    (argv : List String) (temp : Path) (C : Bytes) (eff : FS → FS)
    (oc : ProcOutcome) (st : String) (code : Option Int) (out err : String)
    (stats : JVal) (fate : StreamFate)
    (hoc : run_subprocess oc = .ok (st, code, out, err))
    (hpres : lookupFS (eff (write_input_files temp [(["a", "b.txt"], C)] []))
        (normalize (temp ++ ["a", "b.txt"]))
      = lookupFS (write_input_files temp [(["a", "b.txt"], C)] [])
        (normalize (temp ++ ["a", "b.txt"]))) :
    StreamSection.filePart ["a", "b.txt"] (chunksOf 65536 C)
        ∈ (responseSections (run_command (some [(["a", "b.txt"], C)])
            ⟨argv, [["a", "b.txt"]], temp, oc, eff⟩ stats fate)).getD [] ∧
    (chunksOf 65536 C).flatten = C := by
  have hfs0 : write_input_files temp [(["a", "b.txt"], C)] []
      = [(normalize (temp ++ ["a", "b.txt"]), C)] := by
    simp [write_input_files, insertFS]
  have hlook : lookupFS (eff (write_input_files temp [(["a", "b.txt"], C)] []))
      (normalize (temp ++ ["a", "b.txt"])) = some C := by
    rw [hpres, hfs0]
    simp [lookupFS]
  have hexec : execute_command_sync [(["a", "b.txt"], C)]
      ⟨argv, [["a", "b.txt"]], temp, oc, eff⟩
      = .ok (⟨st, code, [], out, err, String.intercalate " " argv,
              [(["a", "b.txt"], temp ++ ["a", "b.txt"])]⟩,
             eff (write_input_files temp [(["a", "b.txt"], C)] [])) := by
    simp only [execute_command_sync, hoc]
    simp only [collect_output_files, hlook, Option.isSome_some, if_true]
    simp
  constructor
  · simp [run_command, hexec, responseSections, create_multipart_generator,
      read_file, hlook]
  · exact chunksOf_flatten 65536 (by decide) C

/-- Witness for `input_output_roundtrip`: content `[104, 105]` uploaded at
`a/b.txt` comes back byte for byte through the stream. -/
theorem input_output_roundtrip_witness :
    run_subprocess (.exited 0 "" "") = .ok ("COMPLETED", some 0, "", "") ∧
    StreamSection.filePart ["a", "b.txt"] (chunksOf 65536 [104, 105])
        ∈ (responseSections (run_command (some [(["a", "b.txt"], [104, 105])])
            ⟨["true"], [["a", "b.txt"]], ["t9"], .exited 0 "" "", id⟩
            .jnull .completed)).getD [] ∧
    (chunksOf 65536 [104, 105]).flatten = [104, 105] :=
  ⟨rfl,
   (input_output_roundtrip ["true"] ["t9"] [104, 105] id (.exited 0 "" "")
      "COMPLETED" (some 0) "" "" .jnull .completed rfl rfl).1,
   (input_output_roundtrip ["true"] ["t9"] [104, 105] id (.exited 0 "" "")
      "COMPLETED" (some 0) "" "" .jnull .completed rfl rfl).2⟩

end Cli2Rest
